import Mathlib

/-!
Verification of the `NodesHub` relay of `experiments/utils/nodes_hub.py`.

The development shallowly embeds the pure parts of the hub:

* the frame scanner / handshake rewriter `NodesHub.process_buffer`,
* the per-handler data callback `__handle_received_data` (its state effect),
* the edge bookkeeping `connect_nodes` / `disconnect_nodes`,
* the port map construction of `sync_start_proxies`.

Byte strings are `List Nat`; Python slices are modelled exactly (including
negative indices) by `pyBound` / `pySlice` / `pyTake` / `pyDrop`.  The
external collaborators (`hash256` from `test_framework.messages`, i.e. a
double SHA-256, and the port allocator `p2p_port` from
`test_framework.util`) are parameters of the embedding, as the spec scopes
them out.
-/

/-- Python index clamping for `s[a:b]` slices: a negative index counts from
the end (floored at 0), a non-negative index is capped by the length. -/
def pyBound (n : Nat) (i : Int) : Nat :=
  if i < 0 then ((n : Int) + i).toNat else min i.toNat n

/-- Python `s[a:]`. -/
def pyDrop (s : List Nat) (i : Int) : List Nat :=
  s.drop (pyBound s.length i)

/-- Python `s[:b]`. -/
def pyTake (s : List Nat) (i : Int) : List Nat :=
  s.take (pyBound s.length i)

/-- Python `s[a:b]`: the elements from index `bound a` (inclusive) to
`bound b` (exclusive), both bounds computed on the original length. -/
def pySlice (s : List Nat) (a b : Int) : List Nat :=
  (s.take (pyBound s.length b)).drop (pyBound s.length a)

/-- Little-endian value of a byte string (`b0 + 256*b1 + ...`). -/
def leNat (bs : List Nat) : Nat :=
  bs.foldr (fun b acc => b + 256 * acc) 0

/-- Python `struct.unpack("<i", bs)[0]` on a 4-byte string: little-endian
32-bit SIGNED (two's complement) read, exactly as `process_buffer` does at
line 252 of `nodes_hub.py`. -/
def signedLE32 (bs : List Nat) : Int :=
  if leNat bs < 2 ^ 31 then (leNat bs : Int) else (leNat bs : Int) - 2 ^ 32

/-- Python `struct.unpack("!H", bs)[0]`: big-endian 16-bit read; it raises
`struct.error` (here `none`) unless `bs` has exactly two bytes. -/
def unpackBE16 (bs : List Nat) : Option Nat :=
  match bs with
  | [a, b] => some (256 * a + b)
  | _ => none

/-- Python `struct.pack("!H", p)`: big-endian 16-bit encoding; it raises
`struct.error` (here `none`) when the value does not fit in 16 bits. -/
def packBE16 (p : Nat) : Option (List Nat) :=
  if p < 65536 then some [p / 256, p % 256] else none

/-- Lookup in a Python dict modelled as an association list (at most one
binding per key; `pyDictInsert` maintains this). -/
def pyDictGet {α β : Type} [DecidableEq α] (d : List (α × β)) (k : α) : Option β :=
  match d with
  | [] => none
  | kv :: tl => if kv.1 = k then some kv.2 else pyDictGet tl k

/-- Python `d[k] = v`: overwrite in place if the key is present (dicts keep
insertion order), otherwise append. -/
def pyDictInsert {α β : Type} [DecidableEq α] (d : List (α × β)) (k : α) (v : β) :
    List (α × β) :=
  match d with
  | [] => [(k, v)]
  | kv :: tl => if kv.1 = k then (k, v) :: tl else kv :: pyDictInsert tl k v

/-- Python `d.pop(k, None)` (the state effect: the binding disappears). -/
def pyDictPop {α β : Type} [DecidableEq α] (d : List (α × β)) (k : α) : List (α × β) :=
  d.filter (fun kv => kv.1 != k)

/-- MSG_HEADER_LENGTH = 4 + 12 + 4 + 4 in `nodes_hub.py`. -/
def msgHeaderLength : Nat := 24

/-- VERSION_PORT_OFFSET = 4 + 8 + 8 + 26 + 8 + 16 in `nodes_hub.py`. -/
def versionPortOffset : Nat := 70

/-- The `msglen` read of `process_buffer`:
`unpack("<i", buffer[16:20])[0]` (signed little-endian). -/
def msglenOf (buffer : List Nat) : Int :=
  signedLE32 (pySlice buffer 16 20)

/-- The command parse of `process_buffer`:
`buffer[4:16].split(b'\x00', 1)[0]`, i.e. the bytes before the first NUL. -/
def commandOf (buffer : List Nat) : List Nat :=
  (pySlice buffer 4 16).takeWhile (fun x => x != 0)

/-- The ASCII bytes of `b'version'`. -/
def versionCommand : List Nat := [118, 101, 114, 115, 105, 111, 110]

/-- Environment of the scanner: the SHA-256 primitive (external), the port
allocator `p2p_port` (external), the node count, and `ports2node_map`. -/
structure ScanEnv where
  sha : List Nat → List Nat
  f : Nat → Nat
  nNodes : Nat
  portmap : List (Nat × Nat)

/-- The function `hash256` of `test_framework.messages`: double SHA-256. -/
def hash256 (sha : List Nat → List Nat) (m : List Nat) : List Nat :=
  sha (sha m)

/-- Possible results of a run of `process_buffer` on one buffer. -/
inductive PyRet where
  /-- the final `return buffer` at line 288 -/
  | buf (b : List Nat)
  /-- the bare `return` at line 256 (Python returns `None`) -/
  | pyNone
  /-- an uncaught `KeyError` from `self.ports2node_map[node_port]` -/
  | keyError
  /-- an uncaught `struct.error` from `unpack`/`pack` -/
  | structError
  /-- the `while` loop repeats with an identical buffer, i.e. never ends -/
  | diverge
  deriving DecidableEq

/-- The expression `msg[:70] + pack('!H', proxy_port) + msg[72:]`, the payload rewrite of
lines 272-276 of `nodes_hub.py`. -/
def spliceMsg (msg portBytes : List Nat) : List Nat :=
  pySlice msg 0 70 ++ portBytes ++ pyDrop msg 72

/-- Lines 264-270: read the dict (`KeyError` if a non-zero advertised port
is absent from `ports2node_map`) and compute
`proxy_port = p2p_port(len(nodes) + 1 + node)` resp. `0`. -/
def lookupProxyPort (env : ScanEnv) (nodePort : Nat) : Except PyRet Nat :=
  if nodePort ≠ 0 then
    match pyDictGet env.portmap nodePort with
    | none => Except.error PyRet.keyError
    | some nodeIdx => Except.ok (env.f (env.nNodes + 1 + nodeIdx))
  else Except.ok 0

/-- The `b'version' == command` branch of `process_buffer` (lines 261-281):
given the payload `msg` and the first 20 header bytes, produce the bytes of
the rewritten frame that are written to the transport. -/
def versionStep (env : ScanEnv) (msg hdr20 : List Nat) : Except PyRet (List Nat) :=
  match unpackBE16 (pySlice msg 70 72) with
  | none => Except.error PyRet.structError
  | some nodePort =>
    match lookupProxyPort env nodePort with
    | Except.error e => Except.error e
    | Except.ok proxyPort =>
      match packBE16 proxyPort with
      | none => Except.error PyRet.structError
      | some portBytes =>
        Except.ok (hdr20 ++ (hash256 env.sha (spliceMsg msg portBytes)).take 4
          ++ spliceMsg msg portBytes)

/-- One loop iteration of `process_buffer` after the two length checks: the
bytes written to the transport for the frame at the head of the buffer
(or the Python exception it raises). -/
def frameStep (env : ScanEnv) (buffer : List Nat) : Except PyRet (List Nat) :=
  if commandOf buffer = versionCommand then
    versionStep env (pySlice buffer 24 (24 + msglenOf buffer)) (buffer.take 20)
  else
    Except.ok (pyTake buffer (24 + msglenOf buffer))

/-- The `while` loop of `process_buffer`, with explicit fuel.  Each
iteration either strictly shrinks the buffer or leaves it identical (a
Python slice `buffer[k:]` of full length is the buffer itself), in which
case the Python loop runs forever and we answer `PyRet.diverge` at once;
so fuel `buffer.length + 1` is always sufficient and the fuel-0 branch is
unreachable from `processBuffer`. -/
def processBufGo (env : ScanEnv) : Nat → List Nat → List (List Nat) × PyRet
  | 0, _ => ([], PyRet.diverge)
  | fuel + 1, buffer =>
    if buffer.length ≤ 24 then ([], PyRet.buf buffer)
    else if (buffer.length : Int) < 24 + msglenOf buffer then ([], PyRet.pyNone)
    else
      match frameStep env buffer with
      | Except.error e => ([], e)
      | Except.ok w =>
        if (pyDrop buffer (24 + msglenOf buffer)).length < buffer.length then
          (w :: (processBufGo env fuel (pyDrop buffer (24 + msglenOf buffer))).1,
            (processBufGo env fuel (pyDrop buffer (24 + msglenOf buffer))).2)
        else ([w], PyRet.diverge)

/-- Full run of `NodesHub.process_buffer(buffer, transport)`: the list of `transport.write`
calls it performs, in order, and how the call ends. -/
def processBuffer (env : ScanEnv) (buffer : List Nat) : List (List Nat) × PyRet :=
  processBufGo env (buffer.length + 1) buffer

/-- A sample environment for concrete evaluations. -/
def env0 : ScanEnv :=
  { sha := fun _ => [], f := fun x => x, nNodes := 0, portmap := [] }

example : processBuffer env0 [] = ([], PyRet.buf []) := by decide
example : processBuffer env0 (List.replicate 24 0) = ([], PyRet.buf (List.replicate 24 0)) := by
  decide

/-- Frame-well-formedness check used to delimit when the scanner terminates:
every frame the loop consumes has a non-negative `msglen` read.  Same fuel
scheme as `processBufGo` (the recursion shrinks the buffer by at least 24
bytes per step, so fuel `length + 1` suffices). -/
def goodFramesGo : Nat → List Nat → Bool
  | 0, _ => false
  | fuel + 1, buffer =>
    if buffer.length ≤ 24 then true
    else if (buffer.length : Int) < 24 + msglenOf buffer then true
    else if 0 ≤ msglenOf buffer then
      goodFramesGo fuel (pyDrop buffer (24 + msglenOf buffer))
    else false

/-- All length fields that the scan of `buffer` consumes read non-negative. -/
def goodFrames (buffer : List Nat) : Bool :=
  goodFramesGo (buffer.length + 1) buffer

/-- The rewritten `version` payload: the two big-endian port bytes at offset
70 replaced by the big-endian encoding of `port`, everything else kept. -/
def rewrittenPayload (p : List Nat) (port : Nat) : List Nat :=
  p.take 70 ++ [port / 256, port % 256] ++ p.drop 72

/-- A directed edge `(outbound_idx, inbound_idx)`. -/
abbrev Edge := Nat × Nat

/-- The edge-indexed tables of the hub (`NodesHub.__init__`), with transports
and tasks represented by opaque identifiers.  `pendingConnection` is the
single-slot lock of `connect_nodes`. -/
structure ConnState where
  pendingConnection : Option Edge
  sender2proxyTransports : List (Edge × Nat)
  proxy2receiverTransports : List (Edge × Nat)
  relayTasks : List (Edge × Nat)
  deriving DecidableEq

/-- Whether the `connect_nodes` body raises
`RuntimeError('Connection ... already established')` or goes on. -/
inductive ConnectOutcome where
  | raised
  | proceeded
  deriving DecidableEq

/-- Lines 184-198 of `connect_nodes`: after the spin-wait has observed
`pending_connection is None`, the call stores `(out, in)` in the slot and
raises iff the edge is already in either transport table.  On the raise
path nothing resets the slot. -/
def connectNodesAcquire (s : ConnState) (e : Edge) : ConnState × ConnectOutcome :=
  if (pyDictGet s.sender2proxyTransports e).isSome
      || (pyDictGet s.proxy2receiverTransports e).isSome then
    ({ s with pendingConnection := some e }, ConnectOutcome.raised)
  else
    ({ s with pendingConnection := some e }, ConnectOutcome.proceeded)

/-- Model of `NodesHub.disconnect_nodes`: close both transports, cancel the relay
task (side effects on those objects only), and pop all three table entries;
every lookup uses `.get(..., None)` / `.pop(..., None)`, so absent entries
are skipped silently. -/
def disconnectNodes (s : ConnState) (e : Edge) : ConnState :=
  { s with
    sender2proxyTransports := pyDictPop s.sender2proxyTransports e
    proxy2receiverTransports := pyDictPop s.proxy2receiverTransports e
    relayTasks := pyDictPop s.relayTasks e }

/-- How one run of `__handle_received_data` ends. -/
inductive HandlerOutcome where
  /-- normal completion; the handler's `recvbuf` is set to the scanner's
  return value (`none` models Python `None`) -/
  | normal (newRecvbuf : Option (List Nat))
  /-- the scanner raised; the exception escapes the asyncio task (which
  dies, logged by the loop's default handler) and `recvbuf` keeps the
  appended data since the assignment never runs -/
  | taskDied (finalRecvbuf : List Nat)
  /-- the scanner loops forever; the task never completes -/
  | taskHung
  deriving DecidableEq

/-- The state effect of `NodeProxy.__handle_received_data` (the `ProxyRelay`
version is symmetric) after its spin-wait on the peer transport and its
optional delay sleep: append `data` to `recvbuf`, scan, and replace
`recvbuf` with the scanner's return value.  It never touches the hub's
tables — in particular no teardown happens on a scanner exception. -/
def handleReceivedData (env : ScanEnv) (hub : ConnState) (recvbuf data : List Nat) :
    ConnState × HandlerOutcome × List (List Nat) :=
  if data.length = 0 then (hub, HandlerOutcome.normal (some recvbuf), [])
  else
    match processBuffer env (recvbuf ++ data) with
    | (ws, PyRet.buf b) => (hub, HandlerOutcome.normal (some b), ws)
    | (ws, PyRet.pyNone) => (hub, HandlerOutcome.normal none, ws)
    | (ws, PyRet.keyError) => (hub, HandlerOutcome.taskDied (recvbuf ++ data), ws)
    | (ws, PyRet.structError) => (hub, HandlerOutcome.taskDied (recvbuf ++ data), ws)
    | (ws, PyRet.diverge) => (hub, HandlerOutcome.taskHung, ws)

/-- Model of `NodesHub.get_node_port = p2p_port(node_idx)` with allocator `f`. -/
def getNodePort (f : Nat → Nat) (i : Nat) : Nat := f i

/-- Model of `NodesHub.get_proxy_port = p2p_port(len(self.nodes) + 1 + node_idx)`. -/
def getProxyPort (f : Nat → Nat) (n i : Nat) : Nat := f (n + 1 + i)

/-- The loop body of `sync_start_proxies` over a list of node indices:
`map[get_node_port(i)] = i; map[get_proxy_port(i)] = i` with the proxy-port
offset `c` (which is `n + 1` at the call site). -/
def insertNodePorts (f : Nat → Nat) (c : Nat) (m : List (Nat × Nat)) (l : List Nat) :
    List (Nat × Nat) :=
  l.foldl (fun m i => pyDictInsert (pyDictInsert m (f i) i) (f (c + i)) i) m

/-- The `ports2node_map` built by `sync_start_proxies` for `n` nodes. -/
def buildPortsMap (f : Nat → Nat) (n : Nat) : List (Nat × Nat) :=
  insertNodePorts f (n + 1) [] (List.range n)

example : buildPortsMap (fun x => x) 2 = [(0, 0), (3, 0), (1, 1), (4, 1)] := by decide

/-- Concrete 25-byte buffer whose leading frame is incomplete: the length
field at offset 16 reads 100, but only one payload byte is present. -/
def incompleteBuf : List Nat :=
  List.replicate 16 0 ++ [100, 0, 0, 0] ++ List.replicate 5 0

/-- Concrete 25-byte buffer whose length field has the high bit set:
`unpack("<i", ...)` reads it as `-2^31`. -/
def highBitBuf : List Nat :=
  List.replicate 16 0 ++ [0, 0, 0, 128] ++ List.replicate 5 0

/-- Concrete 25-byte buffer whose length field reads `-24`: the loop body
consumes `buffer[24 + (-24):] = buffer`, so the Python loop never ends. -/
def loopBuf : List Nat :=
  List.replicate 16 0 ++ [232, 255, 255, 255] ++ List.replicate 5 0

/-- Concrete complete 24-byte `verack` frame (payload length 0). -/
def verackBuf : List Nat :=
  [0, 0, 0, 0] ++ [118, 101, 114, 97, 99, 107, 0, 0, 0, 0, 0, 0] ++
    [0, 0, 0, 0] ++ [1, 2, 3, 4]

example : processBuffer env0 incompleteBuf = ([], PyRet.pyNone) := by decide
example : msglenOf highBitBuf = -2147483648 := by decide
example : (processBuffer env0 highBitBuf).2 = PyRet.diverge := by decide
example : msglenOf loopBuf = -24 := by decide
example : pyDrop loopBuf (24 + msglenOf loopBuf) = loopBuf := by decide
example : (processBuffer env0 loopBuf).2 = PyRet.diverge := by decide
example : processBuffer env0 verackBuf = ([], PyRet.buf verackBuf) := by decide
example : commandOf verackBuf = [118, 101, 114, 97, 99, 107] := by decide

/-- Environment for the `version`-rewrite witnesses: identity "SHA",
allocator `p2p_port(i) = 100 + i`, two nodes, and a `ports2node_map`
sending port 5 to node 1. -/
def env1 : ScanEnv :=
  { sha := fun l => l, f := fun x => 100 + x, nNodes := 2, portmap := [(5, 1)] }

/-- Header of a concrete `version` frame with payload length 72. -/
def vHdr : List Nat :=
  [0, 0, 0, 0] ++ [118, 101, 114, 115, 105, 111, 110, 0, 0, 0, 0, 0] ++
    [72, 0, 0, 0] ++ [9, 9, 9, 9]

/-- Payload of the concrete `version` frame: advertised port 5 (big-endian
`[0, 5]`) at offset 70. -/
def vPayload : List Nat := List.replicate 70 0 ++ [0, 5]

example :
    processBuffer env1 (vHdr ++ vPayload ++ []) =
      ([vHdr.take 20 ++ [0, 0, 0, 0] ++ (List.replicate 70 0 ++ [0, 104])],
        PyRet.buf []) := by decide

/-- Environment whose `ports2node_map` does not contain port 5. -/
def env3 : ScanEnv :=
  { sha := fun l => l, f := fun x => x, nNodes := 1, portmap := [(9, 0)] }

example : processBuffer env3 (vHdr ++ vPayload ++ []) = ([], PyRet.keyError) := by decide

/-- A concrete hub state with edge `(0, 1)` fully open. -/
def hubEx : ConnState :=
  { pendingConnection := none
    sender2proxyTransports := [((0, 1), 7)]
    proxy2receiverTransports := [((0, 1), 8)]
    relayTasks := [((0, 1), 9)] }

example :
    handleReceivedData env3 hubEx [] (vHdr ++ vPayload ++ []) =
      (hubEx, HandlerOutcome.taskDied (vHdr ++ vPayload ++ []), []) := by decide

lemma pyBound_natCast (n i : Nat) : pyBound n (i : Int) = min i n := by
  simp [pyBound]

lemma pyDrop_natCast (s : List Nat) (a : Nat) : pyDrop s (a : Int) = s.drop a := by
  unfold pyDrop
  rw [pyBound_natCast]
  rcases le_total a s.length with ha | ha
  · rw [min_eq_left ha]
  · rw [min_eq_right ha, List.drop_length, List.drop_eq_nil_of_le ha]

lemma pyTake_natCast (s : List Nat) (a : Nat) : pyTake s (a : Int) = s.take a := by
  unfold pyTake
  rw [pyBound_natCast]
  rcases le_total a s.length with ha | ha
  · rw [min_eq_left ha]
  · rw [min_eq_right ha, List.take_length, List.take_of_length_le ha]

lemma pySlice_natCast (s : List Nat) (a b : Nat) :
    pySlice s (a : Int) (b : Int) = (s.take b).drop a := by
  unfold pySlice
  rw [pyBound_natCast, pyBound_natCast]
  rcases le_total b s.length with hb | hb
  · rw [min_eq_left hb]
    rcases le_total a s.length with ha | ha
    · rw [min_eq_left ha]
    · rw [min_eq_right ha]
      have h1 : (s.take b).length ≤ a := by
        rw [List.length_take]; omega
      have h2 : (s.take b).length ≤ s.length := by
        rw [List.length_take]; omega
      rw [List.drop_eq_nil_of_le h1, List.drop_eq_nil_of_le h2]
  · rw [min_eq_right hb, List.take_length, List.take_of_length_le hb]
    rcases le_total a s.length with ha | ha
    · rw [min_eq_left ha]
    · rw [min_eq_right ha, List.drop_length, List.drop_eq_nil_of_le ha]

lemma processBufGo_congr (env : ScanEnv) :
    ∀ f1 f2 b, b.length < f1 → b.length < f2 →
      processBufGo env f1 b = processBufGo env f2 b := by
  intro f1
  induction f1 with
  | zero => intro f2 b h1 _; omega
  | succ n ih =>
    intro f2 b h1 h2
    match f2, h2 with
    | m + 1, h2 =>
      show processBufGo env (n + 1) b = processBufGo env (m + 1) b
      simp only [processBufGo]
      by_cases hA : b.length ≤ 24
      · simp [hA]
      · simp only [if_neg hA]
        by_cases hB : (b.length : Int) < 24 + msglenOf b
        · simp [hB]
        · simp only [if_neg hB]
          cases hC : frameStep env b with
          | error e => rfl
          | ok w =>
            simp only
            by_cases hD : (pyDrop b (24 + msglenOf b)).length < b.length
            · have hr1 : (pyDrop b (24 + msglenOf b)).length < n := by omega
              have hr2 : (pyDrop b (24 + msglenOf b)).length < m := by omega
              rw [ih _ _ hr1 hr2]
            · simp [hD]

lemma processBufGo_eq (env : ScanEnv) (fuel : Nat) (b : List Nat)
    (h : b.length < fuel) : processBufGo env fuel b = processBuffer env b :=
  processBufGo_congr env fuel (b.length + 1) b h (Nat.lt_succ_self _)

lemma processBuffer_step_ok (env : ScanEnv) (b w : List Nat)
    (h1 : ¬ b.length ≤ 24) (h2 : ¬ ((b.length : Int) < 24 + msglenOf b))
    (h3 : frameStep env b = Except.ok w)
    (h4 : (pyDrop b (24 + msglenOf b)).length < b.length) :
    processBuffer env b =
      (w :: (processBuffer env (pyDrop b (24 + msglenOf b))).1,
        (processBuffer env (pyDrop b (24 + msglenOf b))).2) := by
  show processBufGo env (b.length + 1) b = _
  simp only [processBufGo]
  rw [if_neg h1, if_neg h2, h3]
  simp only [if_pos h4]
  rw [processBufGo_eq env b.length _ h4]

lemma processBuffer_step_err (env : ScanEnv) (b : List Nat) (e : PyRet)
    (h1 : ¬ b.length ≤ 24) (h2 : ¬ ((b.length : Int) < 24 + msglenOf b))
    (h3 : frameStep env b = Except.error e) :
    processBuffer env b = ([], e) := by
  show processBufGo env (b.length + 1) b = _
  simp only [processBufGo]
  rw [if_neg h1, if_neg h2, h3]

lemma buffer_decomp_msg (hdr payload rest : List Nat) (hhdr : hdr.length = 24) :
    pySlice (hdr ++ payload ++ rest) 24 (24 + (payload.length : Int)) = payload := by
  have hcast : (24 : Int) + (payload.length : Int)
      = ((24 + payload.length : Nat) : Int) := by push_cast; ring
  rw [hcast, show (24 : Int) = ((24 : Nat) : Int) from rfl, pySlice_natCast]
  rw [List.append_assoc,
    show 24 + payload.length = hdr.length + payload.length by rw [hhdr],
    List.take_append, List.take_left, ← hhdr, List.drop_left]

lemma buffer_decomp_rest (hdr payload rest : List Nat) (hhdr : hdr.length = 24) :
    pyDrop (hdr ++ payload ++ rest) (24 + (payload.length : Int)) = rest := by
  have hcast : (24 : Int) + (payload.length : Int)
      = ((24 + payload.length : Nat) : Int) := by push_cast; ring
  rw [hcast, pyDrop_natCast]
  rw [List.append_assoc,
    show 24 + payload.length = hdr.length + payload.length by rw [hhdr],
    List.drop_append, List.drop_left]

lemma buffer_decomp_take20 (hdr payload rest : List Nat) (hhdr : hdr.length = 24) :
    (hdr ++ payload ++ rest).take 20 = hdr.take 20 := by
  rw [List.append_assoc]
  exact List.take_append_of_le_length (by omega)

lemma port_bytes_decomp (l : List Nat) (a b : Nat)
    (h70 : l[70]? = some a) (h71 : l[71]? = some b) :
    pySlice l 70 72 = [a, b] := by
  have h71l : 71 < l.length := (List.getElem?_eq_some.mp h71).1
  rw [show ((70 : Int)) = ((70 : Nat) : Int) from rfl,
    show ((72 : Int)) = ((72 : Nat) : Int) from rfl, pySlice_natCast]
  apply List.ext_getElem?
  intro i
  rw [List.getElem?_drop]
  match i with
  | 0 => rw [List.getElem?_take_of_lt (by omega)]; simpa using h70
  | 1 => rw [List.getElem?_take_of_lt (by omega)]; simpa using h71
  | n + 2 =>
    rw [List.getElem?_eq_none (by rw [List.length_take]; omega)]
    simp

lemma spliceMsg_eq (p : List Nat) (port : Nat) :
    spliceMsg p [port / 256, port % 256] = rewrittenPayload p port := by
  unfold spliceMsg rewrittenPayload
  rw [show ((0 : Int)) = ((0 : Nat) : Int) from rfl,
    show ((70 : Int)) = ((70 : Nat) : Int) from rfl,
    show ((72 : Int)) = ((72 : Nat) : Int) from rfl,
    pySlice_natCast, pyDrop_natCast, List.drop_zero]

lemma frameStep_version (env : ScanEnv) (hdr payload rest : List Nat)
    (a b idx : Nat)
    (hhdr : hdr.length = 24)
    (hcmd : commandOf (hdr ++ payload ++ rest) = versionCommand)
    (hlen : msglenOf (hdr ++ payload ++ rest) = (payload.length : Int))
    (h70 : payload[70]? = some a) (h71 : payload[71]? = some b)
    (hp0 : 256 * a + b ≠ 0)
    (hmap : pyDictGet env.portmap (256 * a + b) = some idx)
    (hpp : env.f (env.nNodes + 1 + idx) < 65536) :
    frameStep env (hdr ++ payload ++ rest) =
      Except.ok (hdr.take 20
        ++ (hash256 env.sha
            (rewrittenPayload payload (env.f (env.nNodes + 1 + idx)))).take 4
        ++ rewrittenPayload payload (env.f (env.nNodes + 1 + idx))) := by
  unfold frameStep
  rw [if_pos hcmd, hlen, buffer_decomp_msg hdr payload rest hhdr,
    buffer_decomp_take20 hdr payload rest hhdr]
  unfold versionStep
  rw [port_bytes_decomp payload a b h70 h71]
  show (match lookupProxyPort env (256 * a + b) with
    | Except.error e => Except.error e
    | Except.ok proxyPort => _) = _
  unfold lookupProxyPort
  rw [if_pos hp0, hmap]
  show (match packBE16 (env.f (env.nNodes + 1 + idx)) with
    | none => Except.error PyRet.structError
    | some portBytes => _) = _
  unfold packBE16
  rw [if_pos hpp]
  simp only [spliceMsg_eq]

lemma rewrittenPayload_spec (p : List Nat) (port : Nat) (h : 72 ≤ p.length) :
    (rewrittenPayload p port).length = p.length
    ∧ (∀ k, k ≠ 70 → k ≠ 71 → (rewrittenPayload p port)[k]? = p[k]?)
    ∧ (rewrittenPayload p port)[70]? = some (port / 256)
    ∧ (rewrittenPayload p port)[71]? = some (port % 256) := by
  have hu : (p.take 70).length = 70 := by rw [List.length_take]; omega
  have hu2 : (p.take 70 ++ [port / 256, port % 256]).length = 72 := by
    rw [List.length_append, hu]; rfl
  refine ⟨?_, ?_, ?_, ?_⟩
  · unfold rewrittenPayload
    rw [List.length_append, List.length_append, hu, List.length_drop]
    simp only [List.length_cons, List.length_nil]
    omega
  · intro k hk70 hk71
    unfold rewrittenPayload
    rcases Nat.lt_or_ge k 70 with hk | hk
    · rw [List.getElem?_append_left (by rw [hu2]; omega),
        List.getElem?_append_left (by rw [hu]; omega),
        List.getElem?_take_of_lt hk]
    · have hk' : 72 ≤ k := by omega
      rw [List.getElem?_append_right (by rw [hu2]; omega), hu2,
        List.getElem?_drop, show 72 + (k - 72) = k by omega]
  · unfold rewrittenPayload
    rw [List.getElem?_append_left (by rw [hu2]; omega),
      List.getElem?_append_right hu.le, hu]
    rfl
  · unfold rewrittenPayload
    rw [List.getElem?_append_left (by rw [hu2]; omega),
      List.getElem?_append_right (le_trans hu.le (by omega)), hu]
    rfl

/-- C1: for a complete `version` frame at the head of the buffer whose
advertised port `p = 256*a + b` (big-endian at payload offset 70) is
non-zero and present in `ports2node_map`, the scanner writes a frame whose
payload differs from the original payload only in those two port bytes, the
new port bytes being the big-endian encoding of
`p2p_port(nNodes + 1 + ports2node_map[p])`, and whose header is the
original first 20 header bytes followed by the first 4 bytes of the double
SHA-256 of the rewritten payload; scanning then continues on the rest of
the buffer. -/
theorem nodesHub_c1_version_rewrite (env : ScanEnv) (hdr payload rest : List Nat)
    (a b idx : Nat)
    (hhdr : hdr.length = 24)
    (hcmd : commandOf (hdr ++ payload ++ rest) = versionCommand)
    (hlen : msglenOf (hdr ++ payload ++ rest) = (payload.length : Int))
    (h70 : payload[70]? = some a) (h71 : payload[71]? = some b)
    (hp0 : 256 * a + b ≠ 0)
    (hmap : pyDictGet env.portmap (256 * a + b) = some idx)
    (hpp : env.f (env.nNodes + 1 + idx) < 65536) :
    processBuffer env (hdr ++ payload ++ rest) =
      ((hdr.take 20
          ++ (hash256 env.sha
              (rewrittenPayload payload (env.f (env.nNodes + 1 + idx)))).take 4
          ++ rewrittenPayload payload (env.f (env.nNodes + 1 + idx)))
        :: (processBuffer env rest).1,
        (processBuffer env rest).2)
    ∧ (rewrittenPayload payload (env.f (env.nNodes + 1 + idx))).length
        = payload.length
    ∧ (∀ k, k ≠ 70 → k ≠ 71 →
        (rewrittenPayload payload (env.f (env.nNodes + 1 + idx)))[k]?
          = payload[k]?)
    ∧ (rewrittenPayload payload (env.f (env.nNodes + 1 + idx)))[70]?
        = some (env.f (env.nNodes + 1 + idx) / 256)
    ∧ (rewrittenPayload payload (env.f (env.nNodes + 1 + idx)))[71]?
        = some (env.f (env.nNodes + 1 + idx) % 256) := by
  have hP : 72 ≤ payload.length := by
    have := (List.getElem?_eq_some.mp h71).1
    omega
  have hL : (hdr ++ payload ++ rest).length
      = 24 + payload.length + rest.length := by
    rw [List.length_append, List.length_append, hhdr]
  have h1 : ¬ (hdr ++ payload ++ rest).length ≤ 24 := by omega
  have h2 : ¬ (((hdr ++ payload ++ rest).length : Int)
      < 24 + msglenOf (hdr ++ payload ++ rest)) := by
    rw [hlen, hL]
    push_cast
    omega
  have hrest : pyDrop (hdr ++ payload ++ rest)
      (24 + msglenOf (hdr ++ payload ++ rest)) = rest := by
    rw [hlen]
    exact buffer_decomp_rest hdr payload rest hhdr
  have h4 : (pyDrop (hdr ++ payload ++ rest)
      (24 + msglenOf (hdr ++ payload ++ rest))).length
      < (hdr ++ payload ++ rest).length := by
    rw [hrest]; omega
  have hw := frameStep_version env hdr payload rest a b idx hhdr hcmd hlen h70 h71
    hp0 hmap hpp
  have hmain := processBuffer_step_ok env (hdr ++ payload ++ rest) _ h1 h2 hw h4
  rw [hrest] at hmain
  obtain ⟨hl, hg, h70r, h71r⟩ :=
    rewrittenPayload_spec payload (env.f (env.nNodes + 1 + idx)) hP
  exact ⟨hmain, hl, hg, h70r, h71r⟩

/-- Witness for C1 at a concrete `version` frame: advertised port 5 maps to
node 1, whose proxy port is `p2p_port(2 + 1 + 1) = 104`. -/
theorem nodesHub_c1_witness :
    processBuffer env1 (vHdr ++ vPayload ++ []) =
      ((vHdr.take 20
          ++ (hash256 env1.sha
              (rewrittenPayload vPayload (env1.f (env1.nNodes + 1 + 1)))).take 4
          ++ rewrittenPayload vPayload (env1.f (env1.nNodes + 1 + 1)))
        :: (processBuffer env1 []).1,
        (processBuffer env1 []).2)
    ∧ (rewrittenPayload vPayload (env1.f (env1.nNodes + 1 + 1))).length
        = vPayload.length
    ∧ (rewrittenPayload vPayload (env1.f (env1.nNodes + 1 + 1)))[70]?
        = some (env1.f (env1.nNodes + 1 + 1) / 256)
    ∧ (rewrittenPayload vPayload (env1.f (env1.nNodes + 1 + 1)))[71]?
        = some (env1.f (env1.nNodes + 1 + 1) % 256) := by
  have H := nodesHub_c1_version_rewrite env1 vHdr vPayload [] 0 5 1
    (by decide) (by decide) (by decide) (by decide) (by decide) (by decide)
    (by decide) (by decide)
  exact ⟨H.1, H.2.1, H.2.2.2.1, H.2.2.2.2⟩

lemma buffer_decomp_takeFrame (hdr payload rest : List Nat) (hhdr : hdr.length = 24) :
    pyTake (hdr ++ payload ++ rest) (24 + (payload.length : Int)) = hdr ++ payload := by
  have hcast : (24 : Int) + (payload.length : Int)
      = ((24 + payload.length : Nat) : Int) := by push_cast; ring
  rw [hcast, pyTake_natCast]
  rw [List.append_assoc,
    show 24 + payload.length = hdr.length + payload.length by rw [hhdr],
    List.take_append, List.take_left]

lemma frameStep_nonversion (env : ScanEnv) (hdr payload rest : List Nat)
    (hhdr : hdr.length = 24)
    (hcmd : commandOf (hdr ++ payload ++ rest) ≠ versionCommand)
    (hlen : msglenOf (hdr ++ payload ++ rest) = (payload.length : Int)) :
    frameStep env (hdr ++ payload ++ rest) = Except.ok (hdr ++ payload) := by
  unfold frameStep
  rw [if_neg hcmd, hlen, buffer_decomp_takeFrame hdr payload rest hhdr]

/-- C6 (amended): for a complete non-`version` frame at the head of the
buffer, provided the buffer strictly exceeds the 24-byte header (the loop
guard is `len(buffer) > 24`), the scanner writes exactly the original
`24 + payload_len` frame bytes unchanged and continues on the rest. -/
theorem nodesHub_c6_nonversion_passthrough (env : ScanEnv)
    (hdr payload rest : List Nat)
    (hhdr : hdr.length = 24)
    (hcmd : commandOf (hdr ++ payload ++ rest) ≠ versionCommand)
    (hlen : msglenOf (hdr ++ payload ++ rest) = (payload.length : Int))
    (hgt : 24 < (hdr ++ payload ++ rest).length) :
    processBuffer env (hdr ++ payload ++ rest) =
      ((hdr ++ payload) :: (processBuffer env rest).1,
        (processBuffer env rest).2) := by
  have hL : (hdr ++ payload ++ rest).length
      = 24 + payload.length + rest.length := by
    rw [List.length_append, List.length_append, hhdr]
  have h1 : ¬ (hdr ++ payload ++ rest).length ≤ 24 := by omega
  have h2 : ¬ (((hdr ++ payload ++ rest).length : Int)
      < 24 + msglenOf (hdr ++ payload ++ rest)) := by
    rw [hlen, hL]
    push_cast
    omega
  have hrest : pyDrop (hdr ++ payload ++ rest)
      (24 + msglenOf (hdr ++ payload ++ rest)) = rest := by
    rw [hlen]
    exact buffer_decomp_rest hdr payload rest hhdr
  have h4 : (pyDrop (hdr ++ payload ++ rest)
      (24 + msglenOf (hdr ++ payload ++ rest))).length
      < (hdr ++ payload ++ rest).length := by
    rw [hrest]; omega
  have hw := frameStep_nonversion env hdr payload rest hhdr hcmd hlen
  have hmain := processBuffer_step_ok env (hdr ++ payload ++ rest) _ h1 h2 hw h4
  rw [hrest] at hmain
  exact hmain

/-- Counterexample to C6 as stated: `verackBuf` is a complete non-`version`
frame (24 header bytes, payload length 0), yet the scanner performs no
write at all for it — the loop guard `len(buffer) > 24` is strict, so the
frame is left unconsumed instead of being passed through. -/
theorem nodesHub_c6_counterexample :
    commandOf verackBuf ≠ versionCommand
    ∧ msglenOf verackBuf = 0
    ∧ verackBuf.length = 24
    ∧ processBuffer env0 verackBuf = ([], PyRet.buf verackBuf) := by decide

/-- Concrete non-`version` frame header with payload length 2. -/
def c6Hdr : List Nat :=
  [0, 0, 0, 0] ++ [118, 101, 114, 97, 99, 107, 0, 0, 0, 0, 0, 0] ++
    [2, 0, 0, 0] ++ [1, 2, 3, 4]

/-- Witness for the amended C6 at a concrete `verack` frame with a 2-byte
payload. -/
theorem nodesHub_c6_witness :
    processBuffer env0 (c6Hdr ++ [7, 8] ++ []) =
      ((c6Hdr ++ [7, 8]) :: (processBuffer env0 []).1,
        (processBuffer env0 []).2) :=
  nodesHub_c6_nonversion_passthrough env0 c6Hdr [7, 8] []
    (by decide) (by decide) (by decide) (by decide)

/-- C2 (the code bug, evaluated): on a buffer longer than 24 bytes whose
leading frame is incomplete, `process_buffer` writes nothing but executes a
bare `return`, i.e. returns Python `None` instead of the buffer; the
handler then stores `None` into `recvbuf`, so later-arriving bytes cannot
be appended (`recvbuf += data` raises `TypeError`). -/
theorem nodesHub_c2_incomplete_returns_none :
    24 < incompleteBuf.length
    ∧ ((incompleteBuf.length : Int) < 24 + msglenOf incompleteBuf)
    ∧ processBuffer env0 incompleteBuf = ([], PyRet.pyNone) := by decide

/-- Counterexample to C4 as stated: the length field `[0,0,0,128]` would be
`2^31` as an unsigned read (and, the buffer being only 25 bytes, the
scanner would wait for more data), but `unpack("<i", ...)` reads it as the
negative number `-2^31`; the completeness check then passes and the scan
diverges instead of waiting. -/
theorem nodesHub_c4_counterexample :
    msglenOf highBitBuf < 0
    ∧ msglenOf highBitBuf = -2147483648
    ∧ ¬ ((highBitBuf.length : Int) < 24 + msglenOf highBitBuf)
    ∧ (processBuffer env0 highBitBuf).2 = PyRet.diverge := by decide

lemma length_field_slice (pre post : List Nat) (b0 b1 b2 b3 : Nat)
    (hpre : pre.length = 16) :
    pySlice (pre ++ [b0, b1, b2, b3] ++ post) 16 20 = [b0, b1, b2, b3] := by
  rw [show (16 : Int) = ((16 : Nat) : Int) from rfl,
    show (20 : Int) = ((20 : Nat) : Int) from rfl, pySlice_natCast]
  rw [List.append_assoc,
    show (20 : Nat) = pre.length + 4 by omega,
    List.take_append,
    List.take_append_of_le_length (by simp),
    List.take_of_length_le (by simp), ← hpre, List.drop_left]

/-- C4 (amended): the payload length field at bytes 16..20 is read as a
SIGNED little-endian 32-bit integer (`struct` format `"<i"`); a length
field whose high bit is set (unsigned value ≥ 2^31) is read as a negative
number, and the scanner then never treats such a frame as incomplete. -/
theorem nodesHub_c4_signed_length_read (pre post : List Nat) (b0 b1 b2 b3 : Nat)
    (hpre : pre.length = 16)
    (hb0 : b0 < 256) (hb1 : b1 < 256) (hb2 : b2 < 256) (hb3 : b3 < 256)
    (hhi : 128 ≤ b3)
    (hlen : 24 < (pre ++ [b0, b1, b2, b3] ++ post).length) :
    msglenOf (pre ++ [b0, b1, b2, b3] ++ post) < 0
    ∧ ¬ (((pre ++ [b0, b1, b2, b3] ++ post).length : Int)
        < 24 + msglenOf (pre ++ [b0, b1, b2, b3] ++ post)) := by
  have hslice := length_field_slice pre post b0 b1 b2 b3 hpre
  have hval : msglenOf (pre ++ [b0, b1, b2, b3] ++ post)
      = (leNat [b0, b1, b2, b3] : Int) - 2 ^ 32 := by
    unfold msglenOf
    rw [hslice]
    unfold signedLE32
    rw [if_neg]
    unfold leNat
    simp only [List.foldr_cons, List.foldr_nil]
    omega
  have hle : leNat [b0, b1, b2, b3] < 2 ^ 32 := by
    unfold leNat
    simp only [List.foldr_cons, List.foldr_nil]
    omega
  have hneg : msglenOf (pre ++ [b0, b1, b2, b3] ++ post) < 0 := by
    rw [hval]
    push_cast
    omega
  refine ⟨hneg, ?_⟩
  omega

/-- Witness for the amended C4 at a concrete buffer with length field
`[1, 0, 0, 200]`. -/
theorem nodesHub_c4_witness :
    msglenOf (List.replicate 16 0 ++ [1, 0, 0, 200] ++ List.replicate 5 0) < 0
    ∧ ¬ (((List.replicate 16 0 ++ [1, 0, 0, 200] ++ List.replicate 5 0).length : Int)
        < 24 + msglenOf (List.replicate 16 0 ++ [1, 0, 0, 200] ++ List.replicate 5 0)) :=
  nodesHub_c4_signed_length_read (List.replicate 16 0) (List.replicate 5 0)
    1 0 0 200 (by decide) (by decide) (by decide) (by decide) (by decide)
    (by decide) (by decide)

lemma pyDrop_msglen_shrink (b : List Nat) (h24 : ¬ b.length ≤ 24)
    (hm : 0 ≤ msglenOf b) :
    (pyDrop b (24 + msglenOf b)).length + 24 ≤ b.length := by
  unfold pyDrop pyBound
  rw [if_neg (by omega)]
  have ht : 24 ≤ (24 + msglenOf b).toNat := by omega
  rcases le_total ((24 + msglenOf b).toNat) b.length with h | h
  · rw [min_eq_left h, List.length_drop]
    omega
  · rw [min_eq_right h, List.length_drop]
    omega

lemma lookupProxyPort_err (env : ScanEnv) (np : Nat) (e : PyRet)
    (h : lookupProxyPort env np = Except.error e) : e = PyRet.keyError := by
  unfold lookupProxyPort at h
  split at h
  · split at h
    · cases h; rfl
    · cases h
  · cases h

lemma frameStep_no_diverge (env : ScanEnv) (b : List Nat) (e : PyRet)
    (h : frameStep env b = Except.error e) : e ≠ PyRet.diverge := by
  unfold frameStep versionStep at h
  split at h
  · split at h
    · cases h
      simp
    · split at h
      · cases h
        rename_i heq
        rw [lookupProxyPort_err env _ _ heq]
        simp
      · split at h
        · cases h
          simp
        · cases h
  · cases h

lemma goodFramesGo_congr :
    ∀ f1 f2 b, b.length < f1 → b.length < f2 →
      goodFramesGo f1 b = goodFramesGo f2 b := by
  intro f1
  induction f1 with
  | zero => intro f2 b h1 _; omega
  | succ n ih =>
    intro f2 b h1 h2
    match f2, h2 with
    | m + 1, h2 =>
      show goodFramesGo (n + 1) b = goodFramesGo (m + 1) b
      simp only [goodFramesGo]
      by_cases hA : b.length ≤ 24
      · simp [hA]
      · simp only [if_neg hA]
        by_cases hB : (b.length : Int) < 24 + msglenOf b
        · simp [hB]
        · simp only [if_neg hB]
          by_cases hm : 0 ≤ msglenOf b
          · simp only [if_pos hm]
            have hs := pyDrop_msglen_shrink b hA hm
            exact ih _ _ (by omega) (by omega)
          · simp [hm]

lemma goodFrames_no_diverge (env : ScanEnv) :
    ∀ fuel b, b.length < fuel → goodFrames b = true →
      (processBufGo env fuel b).2 ≠ PyRet.diverge := by
  intro fuel
  induction fuel with
  | zero => intro b h _; omega
  | succ n ih =>
    intro b hlen hg
    have hg' : goodFramesGo (b.length + 1) b = true := hg
    show (processBufGo env (n + 1) b).2 ≠ _
    simp only [processBufGo]
    by_cases hA : b.length ≤ 24
    · simp [hA]
    · simp only [if_neg hA]
      by_cases hB : (b.length : Int) < 24 + msglenOf b
      · simp [hB]
      · simp only [if_neg hB]
        simp only [goodFramesGo, if_neg hA, if_neg hB] at hg'
        by_cases hm : 0 ≤ msglenOf b
        · rw [if_pos hm] at hg'
          have hs := pyDrop_msglen_shrink b hA hm
          have hD : (pyDrop b (24 + msglenOf b)).length < b.length := by omega
          have hrest : goodFrames (pyDrop b (24 + msglenOf b)) = true := by
            unfold goodFrames
            rw [goodFramesGo_congr _ b.length _ (Nat.lt_succ_self _) hD] at *
            exact hg'
          cases hC : frameStep env b with
          | error e =>
            simp only
            exact frameStep_no_diverge env b e hC
          | ok w =>
            simp only [if_pos hD]
            exact ih _ (by omega) hrest
        · rw [if_neg hm] at hg'
          exact absurd hg' (by simp)

/-- C5 (amended): whenever the scanner consumes a frame whose length field
reads non-negative, the residual buffer is shorter by at least the 24
header bytes; consequently the scan never diverges on a buffer all of
whose consumed length fields read non-negative (`goodFrames`).  (The
unamended claim is false: a length field read as negative — possible since
the field is parsed signed — can reproduce the buffer exactly and loop
forever, see the counterexample.) -/
theorem nodesHub_c5_termination_nonneg (env : ScanEnv) (buffer : List Nat) :
    (¬ buffer.length ≤ 24 → 0 ≤ msglenOf buffer →
        (pyDrop buffer (24 + msglenOf buffer)).length + 24 ≤ buffer.length)
    ∧ (goodFrames buffer = true →
        (processBuffer env buffer).2 ≠ PyRet.diverge) := by
  constructor
  · intro h24 hm
    exact pyDrop_msglen_shrink buffer h24 hm
  · intro hg
    exact goodFrames_no_diverge env (buffer.length + 1) buffer (Nat.lt_succ_self _) hg

/-- Counterexample to C5 as stated: `loopBuf` is a finite 25-byte buffer on
which the scanner does not terminate — its length field reads `-24`, the
"consumed" slice `buffer[24 + (-24):]` is the whole buffer again, and the
Python `while` loop runs forever. -/
theorem nodesHub_c5_counterexample :
    loopBuf.length = 25
    ∧ msglenOf loopBuf = -24
    ∧ ¬ loopBuf.length ≤ 24
    ∧ ¬ ((loopBuf.length : Int) < 24 + msglenOf loopBuf)
    ∧ pyDrop loopBuf (24 + msglenOf loopBuf) = loopBuf
    ∧ (processBuffer env0 loopBuf).2 = PyRet.diverge := by decide

/-- Concrete complete frame buffer with a 1-byte payload, used as the C5
witness input. -/
def c5wBuf : List Nat :=
  List.replicate 16 0 ++ [1, 0, 0, 0] ++ [0, 0, 0, 0, 0]

/-- Witness for the amended C5. -/
theorem nodesHub_c5_witness :
    ((pyDrop c5wBuf (24 + msglenOf c5wBuf)).length + 24 ≤ c5wBuf.length)
    ∧ (processBuffer env0 c5wBuf).2 ≠ PyRet.diverge :=
  ⟨(nodesHub_c5_termination_nonneg env0 c5wBuf).1 (by decide) (by decide),
    (nodesHub_c5_termination_nonneg env0 c5wBuf).2 (by decide)⟩

lemma frameStep_version_unknown (env : ScanEnv) (hdr payload rest : List Nat)
    (a b : Nat)
    (hhdr : hdr.length = 24)
    (hcmd : commandOf (hdr ++ payload ++ rest) = versionCommand)
    (hlen : msglenOf (hdr ++ payload ++ rest) = (payload.length : Int))
    (h70 : payload[70]? = some a) (h71 : payload[71]? = some b)
    (hp0 : 256 * a + b ≠ 0)
    (hmap : pyDictGet env.portmap (256 * a + b) = none) :
    frameStep env (hdr ++ payload ++ rest) = Except.error PyRet.keyError := by
  unfold frameStep
  rw [if_pos hcmd, hlen, buffer_decomp_msg hdr payload rest hhdr]
  unfold versionStep
  rw [port_bytes_decomp payload a b h70 h71]
  show (match lookupProxyPort env (256 * a + b) with
    | Except.error e => Except.error e
    | Except.ok proxyPort => _) = _
  unfold lookupProxyPort
  rw [if_pos hp0, hmap]

/-- C3 (amended): when the scanner meets a complete `version` frame whose
non-zero advertised port is absent from `ports2node_map`, it raises
`KeyError`; the relay task dies with that exception (asyncio logs it), the
hub's tables are untouched — in particular the edge is NOT torn down: no
transport is closed or removed — and the hub itself keeps running. -/
theorem nodesHub_c3_unknown_port_no_teardown (env : ScanEnv) (hub : ConnState)
    (hdr payload rest : List Nat) (a b : Nat)
    (hhdr : hdr.length = 24)
    (hcmd : commandOf (hdr ++ payload ++ rest) = versionCommand)
    (hlen : msglenOf (hdr ++ payload ++ rest) = (payload.length : Int))
    (h70 : payload[70]? = some a) (h71 : payload[71]? = some b)
    (hp0 : 256 * a + b ≠ 0)
    (hmap : pyDictGet env.portmap (256 * a + b) = none) :
    processBuffer env (hdr ++ payload ++ rest) = ([], PyRet.keyError)
    ∧ handleReceivedData env hub [] (hdr ++ payload ++ rest)
        = (hub, HandlerOutcome.taskDied (hdr ++ payload ++ rest), []) := by
  have hP : 72 ≤ payload.length := by
    have := (List.getElem?_eq_some.mp h71).1
    omega
  have hL : (hdr ++ payload ++ rest).length
      = 24 + payload.length + rest.length := by
    rw [List.length_append, List.length_append, hhdr]
  have h1 : ¬ (hdr ++ payload ++ rest).length ≤ 24 := by omega
  have h2 : ¬ (((hdr ++ payload ++ rest).length : Int)
      < 24 + msglenOf (hdr ++ payload ++ rest)) := by
    rw [hlen, hL]
    push_cast
    omega
  have hw := frameStep_version_unknown env hdr payload rest a b hhdr hcmd hlen
    h70 h71 hp0 hmap
  have hmain := processBuffer_step_err env (hdr ++ payload ++ rest) _ h1 h2 hw
  refine ⟨hmain, ?_⟩
  unfold handleReceivedData
  rw [if_neg (by omega), List.nil_append, hmain]

/-- Counterexample to C3 as stated: on a `version` frame advertising the
unknown port 5, the relay task dies but the edge `(0, 1)` is NOT torn
down — both transports and the relay task are still registered in the
hub's tables afterwards. -/
theorem nodesHub_c3_counterexample :
    handleReceivedData env3 hubEx [] (vHdr ++ vPayload ++ [])
      = (hubEx, HandlerOutcome.taskDied (vHdr ++ vPayload ++ []), [])
    ∧ pyDictGet env3.portmap 5 = none
    ∧ pyDictGet (handleReceivedData env3 hubEx []
        (vHdr ++ vPayload ++ [])).1.sender2proxyTransports (0, 1) = some 7
    ∧ pyDictGet (handleReceivedData env3 hubEx []
        (vHdr ++ vPayload ++ [])).1.proxy2receiverTransports (0, 1) = some 8
    ∧ pyDictGet (handleReceivedData env3 hubEx []
        (vHdr ++ vPayload ++ [])).1.relayTasks (0, 1) = some 9 := by decide

/-- Payload advertising the unknown port 6, for the C3 witness. -/
def vPayload2 : List Nat := List.replicate 70 0 ++ [0, 6]

/-- Witness for the amended C3. -/
theorem nodesHub_c3_witness :
    processBuffer env3 (vHdr ++ vPayload2 ++ []) = ([], PyRet.keyError)
    ∧ handleReceivedData env3 hubEx [] (vHdr ++ vPayload2 ++ [])
        = (hubEx, HandlerOutcome.taskDied (vHdr ++ vPayload2 ++ []), []) :=
  nodesHub_c3_unknown_port_no_teardown env3 hubEx vHdr vPayload2 [] 0 6
    (by decide) (by decide) (by decide) (by decide) (by decide) (by decide)
    (by decide)

lemma pyDictGet_pop_self {α β : Type} [DecidableEq α] (d : List (α × β)) (k : α) :
    pyDictGet (pyDictPop d k) k = none := by
  induction d with
  | nil => rfl
  | cons kv tl ih =>
    unfold pyDictPop at ih ⊢
    by_cases h : kv.1 = k
    · simp only [List.filter_cons, h, bne_self_eq_false]
      exact ih
    · have hb : (kv.1 != k) = true := by simp [h]
      simp only [List.filter_cons, hb, if_pos]
      show pyDictGet (kv :: _) k = none
      unfold pyDictGet
      rw [if_neg h]
      exact ih

lemma pyDictPop_idem {α β : Type} [DecidableEq α] (d : List (α × β)) (k : α) :
    pyDictPop (pyDictPop d k) k = pyDictPop d k := by
  unfold pyDictPop
  induction d with
  | nil => rfl
  | cons kv tl ih =>
    cases h : kv.1 != k <;> simp [List.filter_cons, h, ih]

/-- C7: `connect_nodes` raises (`EdgeAlreadyExists`, a `RuntimeError` in the
source) exactly when, at the moment the call stores the edge into the
`pending_connection` slot, either `sender2proxy_transports` or
`proxy2receiver_transports` already holds the edge; and after
`disconnect_nodes` has removed both halves, a fresh `connect_nodes` on the
same edge does not raise. -/
theorem nodesHub_c7_connect_raises_iff (s : ConnState) (e : Edge) :
    ((connectNodesAcquire s e).2 = ConnectOutcome.raised ↔
      pyDictGet s.sender2proxyTransports e ≠ none
        ∨ pyDictGet s.proxy2receiverTransports e ≠ none)
    ∧ (connectNodesAcquire (disconnectNodes s e) e).2
        = ConnectOutcome.proceeded := by
  constructor
  · by_cases h1 : pyDictGet s.sender2proxyTransports e = none <;>
      by_cases h2 : pyDictGet s.proxy2receiverTransports e = none <;>
      simp [connectNodesAcquire, h1, h2, Option.isSome_iff_ne_none]
  · simp [connectNodesAcquire, disconnectNodes, pyDictGet_pop_self]

/-- C8: `disconnect_nodes` removes all three table entries for the edge,
silently skips entries that are absent, and is idempotent: a second call on
the same edge leaves the hub state identical. -/
theorem nodesHub_c8_disconnect_idempotent (s : ConnState) (e : Edge) :
    pyDictGet (disconnectNodes s e).sender2proxyTransports e = none
    ∧ pyDictGet (disconnectNodes s e).proxy2receiverTransports e = none
    ∧ pyDictGet (disconnectNodes s e).relayTasks e = none
    ∧ disconnectNodes (disconnectNodes s e) e = disconnectNodes s e := by
  refine ⟨pyDictGet_pop_self _ _, pyDictGet_pop_self _ _, pyDictGet_pop_self _ _, ?_⟩
  simp [disconnectNodes, pyDictPop_idem]

/-- C10: when `connect_nodes` raises `EdgeAlreadyExists`, the
`pending_connection` slot still holds the edge — nothing on the error path
releases it — so on that path the call leaves the hub's mutual-exclusion
state changed. -/
theorem nodesHub_c10_pending_not_released (s : ConnState) (e : Edge)
    (h : (connectNodesAcquire s e).2 = ConnectOutcome.raised) :
    (connectNodesAcquire s e).1.pendingConnection = some e
    ∧ (s.pendingConnection = none → (connectNodesAcquire s e).1 ≠ s) := by
  have hpend : (connectNodesAcquire s e).1.pendingConnection = some e := by
    unfold connectNodesAcquire
    split <;> rfl
  refine ⟨hpend, ?_⟩
  intro hp hcontra
  rw [hcontra, hp] at hpend
  cases hpend

/-- Witness for C10: connecting the already-open edge `(0, 1)` of `hubEx`
raises, and the slot is left holding the edge. -/
theorem nodesHub_c10_witness :
    (connectNodesAcquire hubEx (0, 1)).1.pendingConnection = some (0, 1)
    ∧ (connectNodesAcquire hubEx (0, 1)).1 ≠ hubEx :=
  ⟨(nodesHub_c10_pending_not_released hubEx (0, 1) (by decide)).1,
    (nodesHub_c10_pending_not_released hubEx (0, 1) (by decide)).2 (by decide)⟩

lemma pyDictGet_insert {α β : Type} [DecidableEq α] (d : List (α × β)) (k x : α)
    (v : β) :
    pyDictGet (pyDictInsert d k v) x = if k = x then some v else pyDictGet d x := by
  have hcons : ∀ (kv : α × β) (tl : List (α × β)), pyDictGet (kv :: tl) x
      = if kv.1 = x then some kv.2 else pyDictGet tl x := fun _ _ => rfl
  have hconsP : ∀ (kk : α) (vv : β) (tl : List (α × β)), pyDictGet ((kk, vv) :: tl) x
      = if kk = x then some vv else pyDictGet tl x := fun _ _ _ => rfl
  induction d with
  | nil => rfl
  | cons kv tl ih =>
    unfold pyDictInsert
    by_cases h : kv.1 = k
    · rw [if_pos h, hconsP]
      by_cases hx : k = x
      · rw [if_pos hx, if_pos hx]
      · rw [if_neg hx, if_neg hx, hcons, if_neg (by rw [h]; exact hx)]
    · rw [if_neg h, hcons]
      by_cases hkvx : kv.1 = x
      · rw [if_pos hkvx, if_neg (fun hkx => h (hkvx.trans hkx.symm)), hcons,
          if_pos hkvx]
      · rw [if_neg hkvx, ih]
        by_cases hkx : k = x
        · rw [if_pos hkx, if_pos hkx]
        · rw [if_neg hkx, if_neg hkx, hcons, if_neg hkvx]

lemma insertNodePorts_get_of_ne (f : Nat → Nat) (c : Nat) (l : List Nat) :
    ∀ (m : List (Nat × Nat)) (k : Nat), (∀ j ∈ l, f j ≠ k ∧ f (c + j) ≠ k) →
      pyDictGet (insertNodePorts f c m l) k = pyDictGet m k := by
  induction l with
  | nil => intro m k _; rfl
  | cons a t ih =>
    intro m k hk
    show pyDictGet (insertNodePorts f c
      (pyDictInsert (pyDictInsert m (f a) a) (f (c + a)) a) t) k = _
    rw [ih _ k (fun j hj => hk j (List.mem_cons_of_mem a hj)),
      pyDictGet_insert, pyDictGet_insert,
      if_neg (hk a (List.mem_cons_self a t)).2,
      if_neg (hk a (List.mem_cons_self a t)).1]

lemma insertNodePorts_get_mem (f : Nat → Nat) (c : Nat)
    (hinj : ∀ x y, f x = f y → x = y) (hc : 0 < c) (l : List Nat) :
    ∀ (m : List (Nat × Nat)), l.Nodup → (∀ x ∈ l, ∀ y ∈ l, c + y ≠ x) →
      ∀ i ∈ l, pyDictGet (insertNodePorts f c m l) (f i) = some i
        ∧ pyDictGet (insertNodePorts f c m l) (f (c + i)) = some i := by
  induction l with
  | nil => intro m _ _ i hi; cases hi
  | cons a t ih =>
    intro m hnd hdisj i hi
    have hndt : t.Nodup := (List.nodup_cons.mp hnd).2
    have hat : a ∉ t := (List.nodup_cons.mp hnd).1
    have hdisjt : ∀ x ∈ t, ∀ y ∈ t, c + y ≠ x := fun x hx y hy =>
      hdisj x (List.mem_cons_of_mem a hx) y (List.mem_cons_of_mem a hy)
    rcases List.mem_cons.mp hi with rfl | hit
    · have hne : f (c + i) ≠ f i := fun hcontra => by
        have := hinj _ _ hcontra
        omega
      constructor
      · show pyDictGet (insertNodePorts f c
          (pyDictInsert (pyDictInsert m (f i) i) (f (c + i)) i) t) (f i) = _
        rw [insertNodePorts_get_of_ne f c t _ (f i) ?fresh1,
          pyDictGet_insert, if_neg hne, pyDictGet_insert, if_pos rfl]
        case fresh1 =>
          intro j hj
          constructor
          · intro hcontra
            exact hat ((hinj _ _ hcontra) ▸ hj)
          · intro hcontra
            exact hdisj i (List.mem_cons_self i t) j (List.mem_cons_of_mem i hj)
              (hinj _ _ hcontra)
      · show pyDictGet (insertNodePorts f c
          (pyDictInsert (pyDictInsert m (f i) i) (f (c + i)) i) t) (f (c + i)) = _
        rw [insertNodePorts_get_of_ne f c t _ (f (c + i)) ?fresh2,
          pyDictGet_insert, if_pos rfl]
        case fresh2 =>
          intro j hj
          constructor
          · intro hcontra
            exact hdisj j (List.mem_cons_of_mem i hj) i (List.mem_cons_self i t)
              ((hinj _ _ hcontra).symm)
          · intro hcontra
            have : j = i := by
              have := hinj _ _ hcontra
              omega
            exact hat (this ▸ hj)
    · exact ih _ hndt hdisjt i hit

lemma mem_keys_insert {α β : Type} [DecidableEq α] (d : List (α × β)) (k x : α)
    (v : β) :
    x ∈ (pyDictInsert d k v).map Prod.fst ↔ x = k ∨ x ∈ d.map Prod.fst := by
  induction d with
  | nil => simp [pyDictInsert]
  | cons kv tl ih =>
    unfold pyDictInsert
    by_cases h : kv.1 = k
    · rw [if_pos h]
      simp only [List.map_cons, List.mem_cons, h]
      tauto
    · rw [if_neg h]
      simp only [List.map_cons, List.mem_cons, ih]
      tauto

lemma keys_nodup_insert {α β : Type} [DecidableEq α] (d : List (α × β)) (k : α)
    (v : β) (h : (d.map Prod.fst).Nodup) :
    ((pyDictInsert d k v).map Prod.fst).Nodup := by
  induction d with
  | nil => simp [pyDictInsert]
  | cons kv tl ih =>
    unfold pyDictInsert
    by_cases hk : kv.1 = k
    · rw [if_pos hk]
      simp only [List.map_cons, List.nodup_cons] at h ⊢
      exact ⟨by rw [← hk]; exact h.1, h.2⟩
    · rw [if_neg hk]
      simp only [List.map_cons, List.nodup_cons] at h ⊢
      refine ⟨?_, ih h.2⟩
      intro hcontra
      rw [mem_keys_insert] at hcontra
      rcases hcontra with hEq | hmem
      · exact hk hEq
      · exact h.1 hmem

lemma length_insert_not_mem {α β : Type} [DecidableEq α] (d : List (α × β)) (k : α)
    (v : β) (h : k ∉ d.map Prod.fst) :
    (pyDictInsert d k v).length = d.length + 1 := by
  induction d with
  | nil => rfl
  | cons kv tl ih =>
    simp only [List.map_cons, List.mem_cons] at h
    push_neg at h
    unfold pyDictInsert
    rw [if_neg (fun hc => h.1 hc.symm)]
    simp only [List.length_cons]
    rw [ih h.2]

lemma insertNodePorts_keys_nodup (f : Nat → Nat) (c : Nat) (l : List Nat) :
    ∀ m : List (Nat × Nat), ((m.map Prod.fst).Nodup) →
      ((insertNodePorts f c m l).map Prod.fst).Nodup := by
  induction l with
  | nil => intro m hm; exact hm
  | cons a t ih =>
    intro m hm
    exact ih _ (keys_nodup_insert _ _ _ (keys_nodup_insert _ _ _ hm))

lemma insertNodePorts_length (f : Nat → Nat) (c : Nat)
    (hinj : ∀ x y, f x = f y → x = y) (l : List Nat) :
    ∀ m : List (Nat × Nat), l.Nodup → (∀ x ∈ l, ∀ y ∈ l, c + y ≠ x) →
      (∀ j ∈ l, f j ∉ m.map Prod.fst ∧ f (c + j) ∉ m.map Prod.fst) →
      (insertNodePorts f c m l).length = m.length + 2 * l.length := by
  induction l with
  | nil => intro m _ _ _; rfl
  | cons a t ih =>
    intro m hnd hdisj hfresh
    have hndt := (List.nodup_cons.mp hnd).2
    have hat := (List.nodup_cons.mp hnd).1
    have hdisjt : ∀ x ∈ t, ∀ y ∈ t, c + y ≠ x := fun x hx y hy =>
      hdisj x (List.mem_cons_of_mem a hx) y (List.mem_cons_of_mem a hy)
    have hfa := hfresh a (List.mem_cons_self a t)
    have hca : c + a ≠ a :=
      hdisj a (List.mem_cons_self a t) a (List.mem_cons_self a t)
    have hL1 : (pyDictInsert m (f a) a).length = m.length + 1 :=
      length_insert_not_mem _ _ _ hfa.1
    have hnm2 : f (c + a) ∉ (pyDictInsert m (f a) a).map Prod.fst := by
      rw [mem_keys_insert]
      rintro (hEq | hmem)
      · exact hca (hinj _ _ hEq)
      · exact hfa.2 hmem
    have hL2 : (pyDictInsert (pyDictInsert m (f a) a) (f (c + a)) a).length
        = m.length + 2 := by
      rw [length_insert_not_mem _ _ _ hnm2, hL1]
    have hfresht : ∀ j ∈ t,
        f j ∉ (pyDictInsert (pyDictInsert m (f a) a) (f (c + a)) a).map Prod.fst
        ∧ f (c + j)
          ∉ (pyDictInsert (pyDictInsert m (f a) a) (f (c + a)) a).map Prod.fst := by
      intro j hj
      have hja : j ≠ a := fun hcontra => hat (hcontra ▸ hj)
      constructor
      · rw [mem_keys_insert]
        rintro (hEq | hmem)
        · exact hdisj j (List.mem_cons_of_mem a hj) a (List.mem_cons_self a t)
            (hinj _ _ hEq).symm
        · rw [mem_keys_insert] at hmem
          rcases hmem with hEq2 | hmem2
          · exact hja (hinj _ _ hEq2)
          · exact (hfresh j (List.mem_cons_of_mem a hj)).1 hmem2
      · rw [mem_keys_insert]
        rintro (hEq | hmem)
        · have := hinj _ _ hEq
          exact hja (by omega)
        · rw [mem_keys_insert] at hmem
          rcases hmem with hEq2 | hmem2
          · exact hdisj a (List.mem_cons_self a t) j (List.mem_cons_of_mem a hj)
              (hinj _ _ hEq2)
          · exact (hfresh j (List.mem_cons_of_mem a hj)).2 hmem2
    show (insertNodePorts f c
      (pyDictInsert (pyDictInsert m (f a) a) (f (c + a)) a) t).length = _
    rw [ih _ hndt hdisjt hfresht, hL2]
    simp only [List.length_cons]
    ring

/-- C9: after `sync_start_proxies` builds `ports2node_map` for `n` nodes
with an injective port allocator, every `node_port(i)` and every
`proxy_port(i) = node_port(n + 1 + i)` maps back to node `i`, the map's
keys are pairwise distinct, and all `2n` insertions produced distinct
entries. -/
theorem nodesHub_c9_ports_map (f : Nat → Nat) (n : Nat)
    (hinj : ∀ x y, f x = f y → x = y) :
    (∀ i, i < n →
      pyDictGet (buildPortsMap f n) (getNodePort f i) = some i
      ∧ pyDictGet (buildPortsMap f n) (getProxyPort f n i) = some i)
    ∧ (∀ i, getProxyPort f n i = getNodePort f (n + 1 + i))
    ∧ ((buildPortsMap f n).map Prod.fst).Nodup
    ∧ (buildPortsMap f n).length = 2 * n := by
  have hdisj : ∀ x ∈ List.range n, ∀ y ∈ List.range n, n + 1 + y ≠ x := by
    intro x hx y hy
    have := List.mem_range.mp hx
    omega
  refine ⟨?_, fun i => rfl, ?_, ?_⟩
  · intro i hi
    exact insertNodePorts_get_mem f (n + 1) hinj (by omega) (List.range n) []
      (List.nodup_range n) hdisj i (List.mem_range.mpr hi)
  · exact insertNodePorts_keys_nodup f (n + 1) (List.range n) [] (by simp)
  · have h := insertNodePorts_length f (n + 1) hinj (List.range n) []
      (List.nodup_range n) hdisj (by simp)
    simpa using h

/-- Witness for C9 with the identity allocator and two nodes. -/
theorem nodesHub_c9_witness :
    pyDictGet (buildPortsMap (fun x => x) 2) (getNodePort (fun x => x) 0) = some 0
    ∧ pyDictGet (buildPortsMap (fun x => x) 2) (getProxyPort (fun x => x) 2 0)
        = some 0
    ∧ pyDictGet (buildPortsMap (fun x => x) 2) (getNodePort (fun x => x) 1) = some 1
    ∧ pyDictGet (buildPortsMap (fun x => x) 2) (getProxyPort (fun x => x) 2 1)
        = some 1
    ∧ (buildPortsMap (fun x => x) 2).length = 2 * 2 := by
  have H := nodesHub_c9_ports_map (fun x => x) 2 (fun x y h => h)
  exact ⟨(H.1 0 (by decide)).1, (H.1 0 (by decide)).2, (H.1 1 (by decide)).1,
    (H.1 1 (by decide)).2, H.2.2.2⟩

/-- Witness for C7: on `hubEx` the edge `(0, 1)` is present, so connecting
raises; after disconnecting, connecting proceeds. -/
theorem nodesHub_c7_witness :
    (connectNodesAcquire hubEx (0, 1)).2 = ConnectOutcome.raised
    ∧ (connectNodesAcquire (disconnectNodes hubEx (0, 1)) (0, 1)).2
        = ConnectOutcome.proceeded :=
  ⟨(nodesHub_c7_connect_raises_iff hubEx (0, 1)).1.mpr (Or.inl (by decide)),
    (nodesHub_c7_connect_raises_iff hubEx (0, 1)).2⟩

/-- Witness for C8 on the concrete state `hubEx`. -/
theorem nodesHub_c8_witness :
    pyDictGet (disconnectNodes hubEx (0, 1)).sender2proxyTransports (0, 1) = none
    ∧ pyDictGet (disconnectNodes hubEx (0, 1)).proxy2receiverTransports (0, 1)
        = none
    ∧ pyDictGet (disconnectNodes hubEx (0, 1)).relayTasks (0, 1) = none
    ∧ disconnectNodes (disconnectNodes hubEx (0, 1)) (0, 1)
        = disconnectNodes hubEx (0, 1) :=
  nodesHub_c8_disconnect_idempotent hubEx (0, 1)
